import Mathlib

/- Verification development for the Contiki "Sensor Data Read and Processing"
program (sensor.c).  The program is embedded shallowly over the rational
numbers: the C float arithmetic is modelled by exact arithmetic on ℚ, C int
values by ℤ, and every array access made with a C int index is modelled by a
checked accessor returning none on an out-of-bounds index. -/

namespace Sensor

/-- Function d1 in sensor.c: the integer part of a value, obtained by the C
cast (int)f, which truncates toward zero. -/
def d1 (f : ℚ) : ℤ :=
  if 0 ≤ f then ⌊f⌋ else ⌈f⌉

/-- Function d2 in sensor.c: the fractional part to 3 digits.  The C code
computes 1000*(f - d1(f)) when f > 0 and 1000*(d1(f) - f) otherwise, and the
return type unsigned int truncates the (non-negative) result. -/
def d2 (f : ℚ) : ℕ :=
  if 0 < f then (⌊1000 * (f - (d1 f : ℚ))⌋).toNat
  else (⌊1000 * ((d1 f : ℚ) - f)⌋).toNat

/-- Zero padding to three digits, as printf's %03u conversion produces for an
argument below 1000. -/
def pad3 (n : ℕ) : String :=
  if n < 10 then "00" ++ toString n
  else if n < 100 then "0" ++ toString n
  else toString n

/-- The text produced for one value by the printf format "%d.%03u" applied to
d1(v) and d2(v), as sensor.c does for every rendered numeric value. -/
def render (v : ℚ) : String :=
  toString (d1 v) ++ "." ++ pad3 (d2 v)

/-- The Newton loop of function sqrt in sensor.c, with the remaining fuel as
first argument (the C loop runs at most 50 times).  Each iteration first
updates x to 0.5*(x + S/x), then takes the absolute difference x*x - S by a
conditional negation, and breaks when it is below the 0.001 tolerance.  The
result pairs the final x with the number of iterations executed. -/
def sqrtAux (S : ℚ) : ℕ → ℚ → ℚ × ℕ
  | 0, x => (x, 0)
  | n + 1, x =>
    let x1 := (1 / 2) * (x + S / x)
    let d0 := x1 * x1 - S
    let difference := if d0 < 0 then -d0 else d0
    if difference < 1 / 1000 then (x1, 1)
    else
      let p := sqrtAux S n x1
      (p.1, p.2 + 1)

/-- Function sqrt in sensor.c: Newton's method from initial guess 10.0, at
most 50 iterations, tolerance 0.001 on x*x - S. -/
def sqrt (S : ℚ) : ℚ := (sqrtAux S 50 10).1

/-- The number of loop iterations executed by sqrt for input S. -/
def sqrtIters (S : ℚ) : ℕ := (sqrtAux S 50 10).2

/-- The inner loop of the exchange sort in getMedian (sensor.c): holding the
current value of slot i, walk the suffix; whenever the held value exceeds the
visited slot, swap.  Returns the value left in slot i (the minimum) together
with the new suffix. -/
def selectPass (a : ℚ) : List ℚ → ℚ × List ℚ
  | [] => (a, [])
  | b :: rest =>
    if a > b then
      let p := selectPass b rest
      (p.1, a :: p.2)
    else
      let p := selectPass a rest
      (p.1, b :: p.2)

/-- The outer loop of the exchange sort in getMedian, written with explicit
fuel (one unit per slot; getMedian runs it over the first count slots of the
array).  With fuel at least the length of the list this fully sorts it. -/
def exchangeSortAux : ℕ → List ℚ → List ℚ
  | 0, _ => []
  | _, [] => []
  | n + 1, a :: rest =>
    let p := selectPass a rest
    p.1 :: exchangeSortAux n p.2

/-- The exchange sort performed by getMedian on the first count elements. -/
def exchangeSort (l : List ℚ) : List ℚ := exchangeSortAux l.length l

/-- A C array access TS[i] made with an int index i: none models an
out-of-bounds access (negative index or index at or beyond the length). -/
def getElemChecked (l : List ℚ) (i : ℤ) : Option ℚ :=
  if i < 0 then none else l[i.toNat]?

/-- Function getMedian in sensor.c, applied to the first count elements of
the array (here: the list l, with count = l.length).  The array is first
sorted; for even count the result is the mean of the slots count/2 - 1 and
count/2, for odd count it is slot count/2 (C integer division).  Every slot
access is checked: getMedian with count = 0 reads slot -1, an out-of-bounds
access, so the model returns none there. -/
def getMedianChecked (l : List ℚ) : Option ℚ :=
  let s := exchangeSort l
  let n : ℤ := l.length
  if n % 2 = 0 then
    match getElemChecked s (n / 2 - 1), getElemChecked s (n / 2) with
    | some a, some b => some ((a + b) / 2)
    | _, _ => none
  else getElemChecked s (n / 2)

/-- The median as the specification words it: sort ascending (here with the
library insertion sort), then take the middle element (odd count) or the mean
of the two middle elements (even count). -/
def medianSpec (l : List ℚ) : ℚ :=
  let s := List.insertionSort (fun a b => a ≤ b) l
  if l.length % 2 = 0 then (s.getD (l.length / 2 - 1) 0 + s.getD (l.length / 2) 0) / 2
  else s.getD (l.length / 2) 0

/-- A 12-slot window buffer (the arrays B and T of sensor.c). -/
abbrev Window : Type := Fin 12 → ℚ

/-- The contents of a window as a list, slot 0 first. -/
def windowToList (w : Window) : List ℚ := (List.finRange 12).map w

/-- The FIFO shift of sensor.c: slots 0..10 receive the old values of slots
1..11 and the pushed value enters slot 11. -/
def push (w : Window) (v : ℚ) : Window := fun i =>
  if h : (i : ℕ) + 1 < 12 then w ⟨(i : ℕ) + 1, h⟩ else v

/-- The loop of sensor.c summing the 12 slots of the light window into Sum. -/
def sumWindow (B : Window) : ℚ :=
  (List.finRange 12).foldl (fun s i => s + B i) 0

/-- Mean = Sum/12 in sensor.c. -/
def meanWindow (B : Window) : ℚ := sumWindow B / 12

/-- The loop of sensor.c accumulating SumofDistSquares, the sum of the
squared distances of the 12 slots from the mean. -/
def sumofDistSquares (B : Window) : ℚ :=
  (List.finRange 12).foldl (fun s i => s + (B i - meanWindow B) * (B i - meanWindow B)) 0

/-- StdDev = sqrt(SumofDistSquares) in sensor.c: the square root of the sum
of squared deviations, with no division by 12 before the root. -/
def stdDevOf (B : Window) : ℚ := sqrt (sumofDistSquares B)

/-- The aggregation tier selection of sensor.c: AggrElementsCount is 1 when
StdDev < 100, else 3 when StdDev < 1000, else 12. -/
def aggrElementsCount (sd : ℚ) : ℕ :=
  if sd < 100 then 1 else if sd < 1000 then 3 else 12

/-- The aggregated output X of sensor.c: one overall mean, three means of
four consecutive slots, or the window passed through unchanged, selected by
the tier computed from sd. -/
def aggrOutput (B : Window) (sd : ℚ) : List ℚ :=
  if aggrElementsCount sd = 1 then
    [(B 0 + B 1 + B 2 + B 3 + B 4 + B 5 + B 6 + B 7 + B 8 + B 9 + B 10 + B 11) / 12]
  else if aggrElementsCount sd = 3 then
    [(B 0 + B 1 + B 2 + B 3) / 4, (B 4 + B 5 + B 6 + B 7) / 4,
     (B 8 + B 9 + B 10 + B 11) / 4]
  else windowToList B

/-- The index pairs (i, j), i < j, visited by the double slope loop of
sensor.c, in visit order. -/
def pairIdx : List (Fin 12 × Fin 12) :=
  (List.finRange 12).flatMap fun i =>
    ((List.finRange 12).filter fun j => decide (i < j)).map fun j => (i, j)

/-- The slope collection of sensor.c: for every pair i < j with
B[i] != B[j] (equal-light pairs are skipped), the slope
(T[j] - T[i]) / (B[j] - B[i]) is appended to the slopes array. -/
def computeSlopes (B T : Window) : List ℚ :=
  (pairIdx.filter fun p => decide (B p.1 ≠ B p.2)).map fun p =>
    (T p.2 - T p.1) / (B p.2 - B p.1)

/-- The Theil-Sen engine of sensor.c with checked median calls: median of the
collected slopes, then per-slot offsets T[i] - median_slope*B[i], their
median, and the estimated vector EstT[i] = median_slope*B[i] + median_offset.
The result is none exactly when a median call makes an out-of-bounds
access. -/
def theilSen (B T : Window) : Option (ℚ × ℚ × List ℚ) :=
  match getMedianChecked (computeSlopes B T) with
  | none => none
  | some ms =>
    match getMedianChecked ((List.finRange 12).map fun i => T i - ms * B i) with
    | none => none
    | some mo => some (ms, mo, (List.finRange 12).map fun i => ms * B i + mo)

/-- The measurement and reporting frequency k = 6 of sensor.c. -/
def k : ℤ := 6

/-- The readcount update of sensor.c: increment while below 12, then wrap
back to 1. -/
def tick (rc : ℤ) : ℤ := if rc < 12 then rc + 1 else 1

/-- The static state of the sensor reading process: the read-cycle counter
and the two window buffers. -/
structure SensorState where
  readcount : ℤ
  B : Window
  T : Window

/-- The initial state of sensor.c: readcount 0, both buffers zero-filled. -/
def initState : SensorState := ⟨0, fun _ => 0, fun _ => 0⟩

/-- One timer tick of the sensor reading process: advance the counter, shift
the new readings into both windows, and run the classifier/aggregator when
the counter is k or 2*k and the regression engine when it is 12.  The two
optional components are the reports rendered on trigger ticks. -/
def step (s : SensorState) (light_lx temp_c : ℚ) :
    SensorState × Option (ℚ × List ℚ) × Option (Option (ℚ × ℚ × List ℚ)) :=
  let rc := tick s.readcount
  let B1 := push s.B light_lx
  let T1 := push s.T temp_c
  let agg := if rc = k ∨ rc = 2 * k then
      some (stdDevOf B1, aggrOutput B1 (stdDevOf B1)) else none
  let reg := if rc = 12 then some (theilSen B1 T1) else none
  (⟨rc, B1, T1⟩, agg, reg)

/-- The counter value after n ticks from the initial state. -/
def tickIter (n : ℕ) : ℤ := tick^[n] initState.readcount

/-- The example light vector [1, 2, ..., 12] of the specification. -/
def exLight : Window := fun i => ((i : ℕ) : ℚ) + 1

/-- The example temperature vector [2, 4, ..., 24], exactly twice the
light vector. -/
def exTemp : Window := fun i => 2 * (((i : ℕ) : ℚ) + 1)

/- Helper lemmas about the exchange sort of getMedian. -/

theorem selectPass_snd_length (a : ℚ) (l : List ℚ) :
    (selectPass a l).2.length = l.length := by
  induction l generalizing a with
  | nil => rfl
  | cons b rest ih =>
    by_cases h : a > b <;> simp [selectPass, h, ih]

theorem selectPass_perm (a : ℚ) (l : List ℚ) :
    ((selectPass a l).1 :: (selectPass a l).2).Perm (a :: l) := by
  induction l generalizing a with
  | nil => simp [selectPass]
  | cons b rest ih =>
    by_cases h : a > b
    · simp only [selectPass, if_pos h]
      exact (List.Perm.swap a (selectPass b rest).1 (selectPass b rest).2).trans
        ((ih b).cons a)
    · simp only [selectPass, if_neg h]
      exact ((List.Perm.swap b (selectPass a rest).1 (selectPass a rest).2).trans
        ((ih a).cons b)).trans (List.Perm.swap a b rest)

theorem selectPass_fst_le (a : ℚ) (l : List ℚ) :
    (selectPass a l).1 ≤ a ∧ ∀ x ∈ (selectPass a l).2, (selectPass a l).1 ≤ x := by
  induction l generalizing a with
  | nil => exact ⟨le_refl a, by simp [selectPass]⟩
  | cons b rest ih =>
    by_cases h : a > b
    · simp only [selectPass, if_pos h]
      have hba : (selectPass b rest).1 ≤ a := le_trans (ih b).1 (le_of_lt h)
      refine ⟨hba, ?_⟩
      intro x hx
      rcases List.mem_cons.mp hx with rfl | hx
      · exact hba
      · exact (ih b).2 x hx
    · simp only [selectPass, if_neg h]
      refine ⟨(ih a).1, ?_⟩
      intro x hx
      rcases List.mem_cons.mp hx with rfl | hx
      · exact le_trans (ih a).1 (le_of_not_lt h)
      · exact (ih a).2 x hx

theorem exchangeSortAux_perm (n : ℕ) :
    ∀ l : List ℚ, l.length ≤ n → (exchangeSortAux n l).Perm l := by
  induction n with
  | zero =>
    intro l h
    have hl : l = [] := List.length_eq_zero.mp (Nat.le_zero.mp h)
    subst hl
    simp [exchangeSortAux]
  | succ m ih =>
    intro l h
    match l with
    | [] => simp [exchangeSortAux]
    | a :: rest =>
      simp only [exchangeSortAux]
      have hlen : (selectPass a rest).2.length ≤ m := by
        rw [selectPass_snd_length]
        simpa using Nat.lt_succ_iff.mp (Nat.lt_of_lt_of_le (Nat.lt_succ_of_le le_rfl) h)
      exact ((ih _ hlen).cons _).trans (selectPass_perm a rest)

theorem exchangeSortAux_sorted (n : ℕ) :
    ∀ l : List ℚ, l.length ≤ n →
      (exchangeSortAux n l).Sorted (fun a b => a ≤ b) := by
  induction n with
  | zero => intro l _; simp [exchangeSortAux]
  | succ m ih =>
    intro l h
    match l with
    | [] => simp [exchangeSortAux]
    | a :: rest =>
      simp only [exchangeSortAux]
      have hlen : (selectPass a rest).2.length ≤ m := by
        rw [selectPass_snd_length]
        simpa using h
      rw [List.sorted_cons]
      refine ⟨?_, ih _ hlen⟩
      intro b hb
      have hmem : b ∈ (selectPass a rest).2 :=
        (exchangeSortAux_perm m _ hlen).mem_iff.mp hb
      exact (selectPass_fst_le a rest).2 b hmem

theorem exchangeSort_perm (l : List ℚ) : (exchangeSort l).Perm l :=
  exchangeSortAux_perm l.length l le_rfl

theorem exchangeSort_sorted (l : List ℚ) :
    (exchangeSort l).Sorted (fun a b => a ≤ b) :=
  exchangeSortAux_sorted l.length l le_rfl

theorem exchangeSort_eq_insertionSort (l : List ℚ) :
    exchangeSort l = List.insertionSort (fun a b => a ≤ b) l :=
  List.eq_of_perm_of_sorted
    ((exchangeSort_perm l).trans (List.perm_insertionSort _ l).symm)
    (exchangeSort_sorted l) (List.sorted_insertionSort _ l)

theorem exchangeSort_congr_perm (l₁ l₂ : List ℚ) (hp : l₁.Perm l₂) :
    exchangeSort l₁ = exchangeSort l₂ :=
  List.eq_of_perm_of_sorted
    ((exchangeSort_perm l₁).trans (hp.trans (exchangeSort_perm l₂).symm))
    (exchangeSort_sorted l₁) (exchangeSort_sorted l₂)

theorem exchangeSort_length (l : List ℚ) : (exchangeSort l).length = l.length :=
  (exchangeSort_perm l).length_eq

theorem getMedianChecked_eq_medianSpec (l : List ℚ) (h : l ≠ []) :
    getMedianChecked l = some (medianSpec l) := by
  have hpos : 0 < l.length := List.length_pos.mpr h
  have hslen : (exchangeSort l).length = l.length := exchangeSort_length l
  unfold getMedianChecked medianSpec
  rw [← exchangeSort_eq_insertionSort]
  by_cases hpar : l.length % 2 = 0
  · have hpar2 : ((l.length : ℤ)) % 2 = 0 := by omega
    rw [if_pos hpar2, if_pos hpar]
    have h2 : 2 ≤ l.length := by omega
    have hi1 : ((l.length : ℤ) / 2 - 1) = ((l.length / 2 - 1 : ℕ) : ℤ) := by omega
    have hi2 : ((l.length : ℤ) / 2) = ((l.length / 2 : ℕ) : ℤ) := by omega
    have hb1 : l.length / 2 - 1 < (exchangeSort l).length := by omega
    have hb2 : l.length / 2 < (exchangeSort l).length := by omega
    rw [getElemChecked, getElemChecked, hi1, hi2]
    rw [if_neg (by omega), if_neg (by omega)]
    rw [Int.toNat_ofNat, Int.toNat_ofNat]
    rw [List.getElem?_eq_getElem hb1, List.getElem?_eq_getElem hb2]
    rw [List.getD_eq_getElem _ _ (by omega), List.getD_eq_getElem _ _ (by omega)]
  · have hpar2 : ¬ ((l.length : ℤ)) % 2 = 0 := by omega
    rw [if_neg hpar2, if_neg hpar]
    have hi2 : ((l.length : ℤ) / 2) = ((l.length / 2 : ℕ) : ℤ) := by omega
    have hb2 : l.length / 2 < (exchangeSort l).length := by omega
    rw [getElemChecked, hi2, if_neg (by omega), Int.toNat_ofNat]
    rw [List.getElem?_eq_getElem hb2, List.getD_eq_getElem _ _ (by omega)]

theorem getMedianChecked_isSome (l : List ℚ) (h : l ≠ []) :
    (getMedianChecked l).isSome = true := by
  rw [getMedianChecked_eq_medianSpec l h]
  rfl

theorem getMedianChecked_congr_perm (l₁ l₂ : List ℚ) (hp : l₁.Perm l₂) :
    getMedianChecked l₁ = getMedianChecked l₂ := by
  unfold getMedianChecked
  rw [exchangeSort_congr_perm l₁ l₂ hp, hp.length_eq]

theorem getMedianChecked_replicate (n : ℕ) (a : ℚ) (h : n ≠ 0) :
    getMedianChecked (List.replicate n a) = some a := by
  have hsort : exchangeSort (List.replicate n a) = List.replicate n a :=
    List.perm_replicate.mp (exchangeSort_perm _)
  unfold getMedianChecked
  rw [hsort, List.length_replicate]
  by_cases hpar : (n : ℤ) % 2 = 0
  · have h2 : 2 ≤ n := by omega
    rw [if_pos hpar]
    have hv1 : getElemChecked (List.replicate n a) ((n : ℤ) / 2 - 1) = some a := by
      rw [getElemChecked, if_neg (by omega)]
      rw [List.getElem?_eq_getElem (by simp; omega)]
      rw [List.getElem_replicate]
    have hv2 : getElemChecked (List.replicate n a) ((n : ℤ) / 2) = some a := by
      rw [getElemChecked, if_neg (by omega)]
      rw [List.getElem?_eq_getElem (by simp; omega)]
      rw [List.getElem_replicate]
    rw [hv1, hv2]
    simp
  · rw [if_neg hpar]
    rw [getElemChecked, if_neg (by omega)]
    rw [List.getElem?_eq_getElem (by simp; omega)]
    rw [List.getElem_replicate]

/- Helper lemmas relating the accumulation loops to big-operator sums. -/

theorem foldl_add_map (f : Fin 12 → ℚ) :
    ∀ (l : List (Fin 12)) (a : ℚ),
      l.foldl (fun s i => s + f i) a = a + (l.map f).sum := by
  intro l
  induction l with
  | nil => intro a; simp
  | cons b rest ih => intro a; simp [ih, add_assoc]

theorem sumWindow_eq (B : Window) : sumWindow B = ∑ i, B i := by
  rw [sumWindow, foldl_add_map, Fin.sum_univ_def, zero_add]

theorem sumofDistSquares_eq (B : Window) :
    sumofDistSquares B = ∑ i, (B i - meanWindow B) * (B i - meanWindow B) := by
  rw [sumofDistSquares, foldl_add_map (fun i => (B i - meanWindow B) * (B i - meanWindow B)),
    Fin.sum_univ_def, zero_add]

/-- C1: the dispersion measure the classifier computes over the 12-element
light window is exactly sqrt applied to the sum of the squared deviations of
the window values from the mean sum/12 -- the square root of the sum itself,
with no division by 12 (the window size) before the root. -/
theorem claim_C1_stddev_formula (B : Window) :
    stdDevOf B = sqrt (∑ i, (B i - (∑ j, B j) / 12) ^ 2) := by
  rw [stdDevOf, sumofDistSquares_eq]
  congr 1
  refine Finset.sum_congr rfl fun i _ => ?_
  rw [meanWindow, sumWindow_eq]
  ring

/- Helper lemma for the Newton square-root loop. -/

theorem sqrtAux_tol_or_iters (S : ℚ) :
    ∀ (n : ℕ) (x : ℚ),
      |(sqrtAux S n x).1 * (sqrtAux S n x).1 - S| < 1 / 1000 ∨
        (sqrtAux S n x).2 = n := by
  intro n
  induction n with
  | zero => intro x; exact Or.inr rfl
  | succ m ih =>
    intro x
    rw [sqrtAux]
    set x1 := (1 / 2) * (x + S / x) with hx1
    set d0 := x1 * x1 - S with hd0
    have habs : (if d0 < 0 then -d0 else d0) = |d0| := by
      rcases lt_or_le d0 0 with h | h
      · rw [if_pos h, abs_of_neg h]
      · rw [if_neg (not_lt.mpr h), abs_of_nonneg h]
    by_cases hsmall : (if d0 < 0 then -d0 else d0) < 1 / 1000
    · rw [if_pos hsmall]
      left
      simpa [habs] using hsmall
    · rw [if_neg hsmall]
      rcases ih x1 with h | h
      · exact Or.inl h
      · exact Or.inr (by simp [h])

/-- C6: for every input S >= 0 the square-root routine starts from guess
10.0, iterates x = 0.5*(x + S/x), and stops once |x*x - S| < 0.001 or after
50 iterations; the returned value therefore satisfies |x*x - S| < 0.001
unless all 50 iterations were used. -/
theorem claim_C6_sqrt (S : ℚ) (_h : 0 ≤ S) :
    |sqrt S * sqrt S - S| < 1 / 1000 ∨ sqrtIters S = 50 :=
  sqrtAux_tol_or_iters S 50 10

/-- Witness for C6 at the concrete input S = 4. -/
theorem claim_C6_sqrt_witness :
    (0 : ℚ) ≤ 4 ∧ (|sqrt 4 * sqrt 4 - 4| < 1 / 1000 ∨ sqrtIters 4 = 50) :=
  ⟨by norm_num, claim_C6_sqrt 4 (by norm_num)⟩

/- Helper lemmas for the window push operation. -/

theorem windowToList_length (w : Window) : (windowToList w).length = 12 := by
  simp [windowToList]

/-- C7: for every state of the two window buffers and every pair of pushed
values, the push operation keeps both buffers at length 12, moves the old
value of slot i+1 into slot i for every i in [0,10], and writes the pushed
value into slot 11 -- for the light buffer and the temperature buffer
alike. -/
theorem claim_C7_push (Bw Tw : Window) (lv tv : ℚ) :
    (windowToList (push Bw lv)).length = 12 ∧
    (windowToList (push Tw tv)).length = 12 ∧
    (∀ (i : ℕ) (hi : i < 11),
      push Bw lv ⟨i, by omega⟩ = Bw ⟨i + 1, by omega⟩ ∧
      push Tw tv ⟨i, by omega⟩ = Tw ⟨i + 1, by omega⟩) ∧
    push Bw lv ⟨11, by omega⟩ = lv ∧ push Tw tv ⟨11, by omega⟩ = tv := by
  refine ⟨windowToList_length _, windowToList_length _, ?_, ?_, ?_⟩
  · intro i hi
    constructor
    · show (if h : i + 1 < 12 then Bw ⟨i + 1, h⟩ else lv) = Bw ⟨i + 1, _⟩
      rw [dif_pos (by omega : i + 1 < 12)]
    · show (if h : i + 1 < 12 then Tw ⟨i + 1, h⟩ else tv) = Tw ⟨i + 1, _⟩
      rw [dif_pos (by omega : i + 1 < 12)]
  · show (if h : 11 + 1 < 12 then Bw ⟨11 + 1, h⟩ else lv) = lv
    rw [dif_neg (by omega)]
  · show (if h : 11 + 1 < 12 then Tw ⟨11 + 1, h⟩ else tv) = tv
    rw [dif_neg (by omega)]

/-- Witness for C7: pushing 5 and 7 onto concrete windows moves slot 4 into
slot 3 and writes the new values into slot 11. -/
theorem claim_C7_push_witness :
    (push (fun j => (j : ℕ)) 5 ⟨3, by omega⟩ = (fun j => ((j : ℕ) : ℚ)) (⟨4, by omega⟩ : Fin 12) ∧
      push (fun j => (j : ℕ) + 100) 7 ⟨3, by omega⟩ =
        (fun j => ((j : ℕ) : ℚ) + 100) (⟨4, by omega⟩ : Fin 12)) ∧
    push (fun j => (j : ℕ)) 5 ⟨11, by omega⟩ = 5 :=
  ⟨(claim_C7_push (fun j => (j : ℕ)) (fun j => (j : ℕ) + 100) 5 7).2.2.1 3 (by omega),
   (claim_C7_push (fun j => (j : ℕ)) (fun j => (j : ℕ) + 100) 5 7).2.2.2.1⟩

/- Helper lemmas for the read-cycle counter. -/

theorem tick_bounds (rc : ℤ) (h0 : 0 ≤ rc) (h12 : rc ≤ 12) :
    1 ≤ tick rc ∧ tick rc ≤ 12 := by
  rw [tick]
  split_ifs <;> omega

theorem tickIter_bounds (n : ℕ) : 0 ≤ tickIter n ∧ tickIter n ≤ 12 := by
  induction n with
  | zero => simp [tickIter, initState]
  | succ m ih =>
    have hstep : tickIter (m + 1) = tick (tickIter m) := by
      rw [tickIter, tickIter, Function.iterate_succ_apply']
    rw [hstep]
    have := tick_bounds (tickIter m) ih.1 ih.2
    exact ⟨by omega, this.2⟩

theorem tickIter_succ_mem (n : ℕ) : 1 ≤ tickIter (n + 1) ∧ tickIter (n + 1) ≤ 12 := by
  have hstep : tickIter (n + 1) = tick (tickIter n) := by
    rw [tickIter, tickIter, Function.iterate_succ_apply']
  rw [hstep]
  exact tick_bounds (tickIter n) (tickIter_bounds n).1 (tickIter_bounds n).2

/-- C8: the read-cycle counter lies in [1,12] after every tick, advances by
exactly 1 per tick, and wraps from 12 back to 1; the classifier/aggregator
report is produced exactly on ticks whose counter value is 6 or 12, and the
regression report exactly on ticks whose counter value is 12. -/
theorem claim_C8_counter (s : SensorState) (lv tv : ℚ) :
    (∀ n : ℕ, 1 ≤ tickIter (n + 1) ∧ tickIter (n + 1) ≤ 12) ∧
    (step s lv tv).1.readcount = tick s.readcount ∧
    (s.readcount < 12 → (step s lv tv).1.readcount = s.readcount + 1) ∧
    (s.readcount = 12 → (step s lv tv).1.readcount = 1) ∧
    ((step s lv tv).2.1.isSome = true ↔
      ((step s lv tv).1.readcount = 6 ∨ (step s lv tv).1.readcount = 12)) ∧
    ((step s lv tv).2.2.isSome = true ↔ (step s lv tv).1.readcount = 12) := by
  refine ⟨tickIter_succ_mem, rfl, ?_, ?_, ?_, ?_⟩
  · intro h
    show tick s.readcount = s.readcount + 1
    rw [tick, if_pos h]
  · intro h
    show tick s.readcount = 1
    rw [tick, if_neg (by omega)]
  · show (if tick s.readcount = k ∨ tick s.readcount = 2 * k then
        some (stdDevOf (push s.B lv), aggrOutput (push s.B lv) (stdDevOf (push s.B lv)))
      else none).isSome = true ↔
      (tick s.readcount = 6 ∨ tick s.readcount = 12)
    rw [k]
    split_ifs with h
    · simpa using h
    · simpa using h
  · show (if tick s.readcount = 12 then some (theilSen (push s.B lv) (push s.T tv))
      else none).isSome = true ↔ tick s.readcount = 12
    split_ifs with h
    · simpa using h
    · simpa using h

/-- Witness for C8: one tick from the initial state (counter 0) advances the
counter to 1, and a tick at counter 12 wraps to 1. -/
theorem claim_C8_counter_witness :
    (step initState 1 2).1.readcount = initState.readcount + 1 ∧
    (step (SensorState.mk 12 (fun j => (j : ℕ)) (fun j => (j : ℕ))) 1 2).1.readcount = 1 :=
  ⟨(claim_C8_counter initState 1 2).2.2.1 (by norm_num [initState]),
   (claim_C8_counter (SensorState.mk 12 (fun j => (j : ℕ)) (fun j => (j : ℕ))) 1 2).2.2.2.1 rfl⟩

/- Helper lemmas expanding the 12-slot window. -/

theorem finRange_twelve :
    List.finRange 12 = [0, 1, 2, 3, 4, 5, 6, 7, 8, 9, 10, 11] := by decide

theorem windowToList_expand (B : Window) : windowToList B =
    [B 0, B 1, B 2, B 3, B 4, B 5, B 6, B 7, B 8, B 9, B 10, B 11] := by
  rw [windowToList, finRange_twelve]
  rfl

theorem sum_univ_twelve (B : Window) : (∑ i, B i) =
    B 0 + B 1 + B 2 + B 3 + B 4 + B 5 + B 6 + B 7 + B 8 + B 9 + B 10 + B 11 := by
  rw [Fin.sum_univ_def, finRange_twelve]
  simp
  ring

/-- C4: the aggregation tier is decided by the dispersion value with the
boundaries of sensor.c: below 100 one output value, the mean of all 12
window slots; from 100 up to (excluding) 1000 three output values, the means
of the consecutive slot groups [0-3], [4-7], [8-11]; from 1000 on the 12
slots pass through unchanged.  At the boundaries, 99.999 gives tier 1, 100
and 999.999 give tier 3, and 1000 gives tier 12. -/
theorem claim_C4_aggregation (B : Window) (sd : ℚ) :
    (sd < 100 → aggrElementsCount sd = 1 ∧
      aggrOutput B sd = [(∑ i, B i) / 12]) ∧
    (100 ≤ sd → sd < 1000 → aggrElementsCount sd = 3 ∧
      aggrOutput B sd = [((windowToList B).take 4).sum / 4,
        (((windowToList B).drop 4).take 4).sum / 4,
        ((windowToList B).drop 8).sum / 4]) ∧
    (1000 ≤ sd → aggrElementsCount sd = 12 ∧ aggrOutput B sd = windowToList B) ∧
    aggrElementsCount (99999 / 1000) = 1 ∧ aggrElementsCount 100 = 3 ∧
    aggrElementsCount (999999 / 1000) = 3 ∧ aggrElementsCount 1000 = 12 := by
  refine ⟨?_, ?_, ?_, ?_, ?_, ?_, ?_⟩
  · intro h
    have hc : aggrElementsCount sd = 1 := by rw [aggrElementsCount, if_pos h]
    refine ⟨hc, ?_⟩
    rw [aggrOutput, hc, if_pos rfl, sum_univ_twelve]
  · intro h1 h2
    have hc : aggrElementsCount sd = 3 := by
      rw [aggrElementsCount, if_neg (not_lt.mpr h1), if_pos h2]
    refine ⟨hc, ?_⟩
    rw [aggrOutput, hc, if_neg (by norm_num), if_pos rfl, windowToList_expand]
    norm_num
    refine ⟨by ring, by ring, by ring⟩
  · intro h
    have hc : aggrElementsCount sd = 12 := by
      rw [aggrElementsCount, if_neg (by linarith), if_neg (by linarith)]
    refine ⟨hc, ?_⟩
    rw [aggrOutput, hc, if_neg (by norm_num), if_neg (by norm_num)]
  · rw [aggrElementsCount, if_pos (by norm_num)]
  · rw [aggrElementsCount, if_neg (by norm_num), if_pos (by norm_num)]
  · rw [aggrElementsCount, if_neg (by norm_num), if_pos (by norm_num)]
  · rw [aggrElementsCount, if_neg (by norm_num), if_neg (by norm_num)]

/-- Witness for C4 at the dispersion values 50, 500 and 2000. -/
theorem claim_C4_aggregation_witness :
    aggrElementsCount 50 = 1 ∧ aggrElementsCount 500 = 3 ∧
    aggrElementsCount 2000 = 12 :=
  ⟨((claim_C4_aggregation exLight 50).1 (by norm_num)).1,
   ((claim_C4_aggregation exLight 500).2.1 (by norm_num) (by norm_num)).1,
   ((claim_C4_aggregation exLight 2000).2.2.1 (by norm_num)).1⟩

/-- C5: for every array of at least one element, getMedian sorts the
elements ascending and returns the mean of the slots count/2 - 1 and count/2
for even count and the slot count/2 for odd count (the medianSpec value); the
result is unchanged under any permutation of the input; and
median([1,2,3,4]) = 2.5 and median([1,2,3]) = 2. -/
theorem claim_C5_median :
    (∀ l : List ℚ, l ≠ [] → getMedianChecked l = some (medianSpec l)) ∧
    (∀ l₁ l₂ : List ℚ, l₁.Perm l₂ → getMedianChecked l₁ = getMedianChecked l₂) ∧
    getMedianChecked [1, 2, 3, 4] = some (5 / 2) ∧
    getMedianChecked [1, 2, 3] = some 2 := by
  refine ⟨getMedianChecked_eq_medianSpec, getMedianChecked_congr_perm, ?_, ?_⟩
  · norm_num [getMedianChecked, exchangeSort, exchangeSortAux, selectPass, getElemChecked,
      (show Int.toNat 2 = 2 from rfl)]
  · norm_num [getMedianChecked, exchangeSort, exchangeSortAux, selectPass, getElemChecked,
      (show Int.toNat 1 = 1 from rfl)]

/-- Witness for C5: the shuffled list [3,1,2] has the medianSpec median and
the same median as its permutation [1,2,3]. -/
theorem claim_C5_median_witness :
    getMedianChecked [3, 1, 2] = some (medianSpec [3, 1, 2]) ∧
    getMedianChecked [3, 1, 2] = getMedianChecked [1, 2, 3] :=
  ⟨claim_C5_median.1 [3, 1, 2] (by simp),
   claim_C5_median.2.1 [3, 1, 2] [1, 2, 3] (by decide)⟩

set_option maxRecDepth 4000 in
theorem pairIdx_mem : ∀ p : Fin 12 × Fin 12, p ∈ pairIdx ↔ p.1 < p.2 := by decide

theorem pairIdx_length : pairIdx.length = 66 := by decide

theorem computeSlopes_ex : computeSlopes exLight exTemp = List.replicate 66 2 := by
  rw [computeSlopes]
  have hfilter : (pairIdx.filter fun p => decide (exLight p.1 ≠ exLight p.2)) = pairIdx := by
    rw [List.filter_eq_self]
    intro p hp
    have hlt : (p.1 : ℕ) < (p.2 : ℕ) := (pairIdx_mem p).mp hp
    simp only [exLight, ne_eq, add_left_inj, Nat.cast_inj, decide_eq_true_eq]
    omega
  rw [hfilter]
  have hmap : (pairIdx.map fun p => (exTemp p.2 - exTemp p.1) / (exLight p.2 - exLight p.1))
      = pairIdx.map fun _ => (2 : ℚ) := by
    apply List.map_congr_left
    intro p hp
    have hlt : (p.1 : ℕ) < (p.2 : ℕ) := (pairIdx_mem p).mp hp
    have hv : (((p.1 : ℕ) : ℚ)) < (((p.2 : ℕ) : ℚ)) := by exact_mod_cast hlt
    have hsub : (((p.2 : ℕ) : ℚ) + 1) - (((p.1 : ℕ) : ℚ) + 1) ≠ 0 := by
      intro hEq
      have : (((p.2 : ℕ) : ℚ)) = (((p.1 : ℕ) : ℚ)) := by linarith
      linarith
    simp only [exLight, exTemp]
    rw [div_eq_iff hsub]
    ring
  rw [hmap]
  have : pairIdx.map (fun _ => (2 : ℚ)) = List.replicate pairIdx.length 2 := by
    simp [List.map_const]
  rw [this, pairIdx_length]

theorem offsets_ex :
    ((List.finRange 12).map fun i => exTemp i - 2 * exLight i) = List.replicate 12 0 := by
  have h : ((List.finRange 12).map fun i => exTemp i - 2 * exLight i)
      = (List.finRange 12).map fun _ => (0 : ℚ) := by
    apply List.map_congr_left
    intro i _
    simp only [exLight, exTemp]
    ring
  rw [h]
  simp [List.map_const]

theorem estT_ex :
    ((List.finRange 12).map fun i => 2 * exLight i + 0) = windowToList exTemp := by
  rw [windowToList]
  apply List.map_congr_left
  intro i _
  simp only [exLight, exTemp]
  ring

theorem theilSen_ex : theilSen exLight exTemp = some (2, 0, windowToList exTemp) := by
  have h1 : getMedianChecked (computeSlopes exLight exTemp) = some 2 := by
    rw [computeSlopes_ex]
    exact getMedianChecked_replicate 66 2 (by norm_num)
  have h2 : getMedianChecked ((List.finRange 12).map fun i => exTemp i - 2 * exLight i)
      = some 0 := by
    rw [offsets_ex]
    exact getMedianChecked_replicate 12 0 (by norm_num)
  rw [theilSen, h1]
  simp only [h2, estT_ex]

/-- C2: the Theil-Sen engine collects the slope (T[j]-T[i])/(B[j]-B[i]) for
exactly the pairs i < j with B[i] != B[j] (equal-light pairs skipped), takes
the median of the slopes, derives the 12 offsets and their median, and
predicts medianSlope*B[i] + medianOffset; on light [1..12] and temperature
2*light, the median slope is 2, the median offset is 0, and the predicted
series equals the temperature series exactly. -/
theorem claim_C2_theilsen :
    (∀ (B T : Window) (s : ℚ), s ∈ computeSlopes B T ↔
      ∃ i j : Fin 12, i < j ∧ B i ≠ B j ∧ s = (T j - T i) / (B j - B i)) ∧
    theilSen exLight exTemp = some (2, 0, windowToList exTemp) := by
  constructor
  · intro B T s
    unfold computeSlopes
    simp only [List.mem_map, List.mem_filter, decide_eq_true_eq]
    constructor
    · rintro ⟨p, ⟨hmem, hne⟩, rfl⟩
      exact ⟨p.1, p.2, (pairIdx_mem p).mp hmem, hne, rfl⟩
    · rintro ⟨i, j, hij, hne, rfl⟩
      exact ⟨(i, j), ⟨(pairIdx_mem (i, j)).mpr hij, hne⟩, rfl⟩
  · exact theilSen_ex

/-- C3: the claim demands that the regression step on a window of 12
pairwise-equal light values not read out of bounds and surface an explicit
NoRegressionAvailable outcome; sensor.c instead collects zero slopes and
calls getMedian with count 0, which reads slot 0/2 - 1 = -1 of the slopes
array -- an out-of-bounds access with no guard.  Evaluated at the flat
window with every light value 5 (temperature 7): the slope list is empty and
the checked regression evaluation reports the out-of-bounds access (none);
no fallback value is produced. -/
theorem claim_C3_flat_window_oob :
    computeSlopes (fun _ => 5) (fun _ => 7) = [] ∧
    getMedianChecked ([] : List ℚ) = none ∧
    theilSen (fun _ => 5) (fun _ => 7) = none :=
  ⟨by decide, by decide, by decide⟩

/-- C10: the pairwise-slope loop appends one slope per unordered pair i < j
of window indices, so at most 66 slopes are collected -- in particular the
writes stay far within the 144-slot slopes buffer -- and whenever at least
one slope was collected, the median call performs only in-bounds accesses
(the checked evaluation produces a value). -/
theorem claim_C10_slope_bounds :
    (∀ B T : Window, (computeSlopes B T).length ≤ 66) ∧
    (∀ B T : Window, (computeSlopes B T).length ≤ 144) ∧
    (∀ l : List ℚ, l ≠ [] → (getMedianChecked l).isSome = true) := by
  have hb : ∀ B T : Window, (computeSlopes B T).length ≤ 66 := by
    intro B T
    rw [computeSlopes, List.length_map]
    calc (pairIdx.filter fun p => decide (B p.1 ≠ B p.2)).length
        ≤ pairIdx.length := List.length_filter_le _ _
      _ = 66 := pairIdx_length
  exact ⟨hb, fun B T => le_trans (hb B T) (by norm_num), getMedianChecked_isSome⟩

/-- Witness for C10: the one-element slope list [2] gives an in-bounds
median access, and the slope count of the example windows is within 66. -/
theorem claim_C10_slope_bounds_witness :
    (getMedianChecked [2]).isSome = true ∧
    (computeSlopes exLight exTemp).length ≤ 66 :=
  ⟨claim_C10_slope_bounds.2.2 [2] (by simp),
   claim_C10_slope_bounds.1 exLight exTemp⟩

/- Helper evaluations for the numeric formatter at -1/2. -/

theorem d1_neg_half : d1 (-1/2 : ℚ) = 0 := by
  rw [d1, if_neg (by norm_num)]
  rw [Int.ceil_eq_iff]
  norm_num

theorem d2_neg_half : d2 (-1/2 : ℚ) = 500 := by
  rw [d2, if_neg (by norm_num), d1_neg_half]
  norm_num
  decide

theorem render_neg_half : render (-1/2 : ℚ) = "0.500" := by
  rw [render, d1_neg_half, d2_neg_half]
  decide

/-- C9 counterexample: -1/2 is negative, yet it renders as "0.500" -- the
integer part is 0 with no leading minus sign, so the sign of the value is
lost.  The claim that every negative value renders with a leading minus on
the integer part is false for values strictly between -1 and 0. -/
theorem claim_C9_counterexample :
    (-1/2 : ℚ) < 0 ∧ render (-1/2 : ℚ) = "0.500" ∧
    (render (-1/2 : ℚ)).data.head? = some '0' := by
  refine ⟨by norm_num, render_neg_half, ?_⟩
  rw [render_neg_half]
  decide

/-- C9 amended: the fractional part is always the 3-digit fraction computed
from the absolute value, and it is below 1000 (so %03u zero-pads it to
exactly three digits); a value at or below -1 has a negative integer part
(so it renders with a leading minus), but a negative value strictly between
-1 and 0 has integer part 0 and renders with no minus sign. -/
theorem claim_C9_formatter (v : ℚ) :
    (d2 v : ℤ) = ⌊1000 * (|v| - (⌊|v|⌋ : ℚ))⌋ ∧
    d2 v < 1000 ∧
    (v ≤ -1 → d1 v < 0) ∧
    (-1 < v → v < 0 → d1 v = 0) := by
  have habs : (d2 v : ℤ) = ⌊1000 * (|v| - (⌊|v|⌋ : ℚ))⌋ := by
    rcases lt_trichotomy 0 v with hv | hv | hv
    · rw [d2, if_pos hv, d1, if_pos (le_of_lt hv), abs_of_pos hv]
      refine Int.toNat_of_nonneg (Int.floor_nonneg.mpr ?_)
      rw [Int.self_sub_floor]
      have := Int.fract_nonneg v
      linarith
    · rw [← hv]
      norm_num [d2, d1]
    · rw [d2, if_neg (by linarith), d1, if_neg (by linarith), abs_of_neg hv]
      have harg : 1000 * ((⌈v⌉ : ℚ) - v) = 1000 * (-v - ((⌊-v⌋ : ℤ) : ℚ)) := by
        rw [Int.floor_neg]
        push_cast
        ring
      rw [← harg]
      refine Int.toNat_of_nonneg (Int.floor_nonneg.mpr ?_)
      have := Int.le_ceil v
      nlinarith
  refine ⟨habs, ?_, ?_, ?_⟩
  · have hlt : ⌊1000 * (|v| - (⌊|v|⌋ : ℚ))⌋ < 1000 := by
      rw [Int.self_sub_floor]
      refine Int.floor_lt.mpr ?_
      have h1 := Int.fract_lt_one |v|
      push_cast
      nlinarith
    omega
  · intro h
    rw [d1, if_neg (by linarith)]
    have : ⌈v⌉ ≤ -1 := Int.ceil_le.mpr (by push_cast; linarith)
    omega
  · intro h1 h2
    rw [d1, if_neg (by linarith)]
    have ha : ⌈v⌉ ≤ 0 := Int.ceil_le.mpr (by push_cast; linarith)
    have hb : (-1 : ℤ) < ⌈v⌉ := Int.lt_ceil.mpr (by push_cast; linarith)
    omega

/-- Witness for C9 at -3/2 (renders with a minus) and -1/2 (renders with
integer part 0). -/
theorem claim_C9_formatter_witness :
    ((-3/2 : ℚ) ≤ -1 ∧ d1 (-3/2 : ℚ) < 0) ∧
    ((-1 : ℚ) < -1/2 ∧ (-1/2 : ℚ) < 0 ∧ d1 (-1/2 : ℚ) = 0) :=
  ⟨⟨by norm_num, (claim_C9_formatter (-3/2)).2.2.1 (by norm_num)⟩,
   ⟨by norm_num, by norm_num,
    (claim_C9_formatter (-1/2)).2.2.2 (by norm_num) (by norm_num)⟩⟩

end Sensor
